import Mathlib

/-!
Verification of the APReader catman binary decoding core (`src/apread/entries.py`)
against its natural-language specification.

The embedding below translates the Python source into Lean:

* Machine integers become `Nat`/`Int` with explicit little-endian byte (de)coding.
* IEEE-754 doubles and floats are decoded from their bytes into exact rationals
  (`ℚ`); NaN and the infinities have no rational counterpart and are outside the
  model (no claim touches them), the decoding formula simply extends to those
  bit patterns as large finite rationals.
* Fallible code (reads past the end of the buffer, Python `AttributeError`,
  `IndexError`, `ZeroDivisionError`) returns `Except PyError`.
* The sequential byte cursor (`BinaryReader`) is state threaded through a
  `StateT` monad, mirroring the mutable read position of the Python reader.

The repository imports `apread.binaryReader.BinaryReader`, whose file is not
part of the sources at hand; the cursor primitives are therefore modelled from
the specification (each such definition is marked `Modelled from the spec:`).
Everything else is translated line by line from `entries.py`.
-/

set_option exponentiation.threshold 1200

deriving instance DecidableEq for Except

namespace APRead

/-- Python exception kinds that the modelled code can raise. -/
inductive PyError where
  | outOfBounds
  | attributeError
  | indexError
  | zeroDivisionError
  deriving DecidableEq

/-- Embed a natural number into `ℚ`. The `q`-prefixed arithmetic helpers below
are definitionally transparent rational operations (plain `mkRat`
constructions); the bridge lemmas `qOfNat_eq`, `qmul_eq`, ... identify them
with the standard `ℚ` operations, which the theorems are stated with. -/
def qOfNat (n : ℕ) : ℚ := mkRat (Int.ofNat n) 1

/-- Embed an integer into `ℚ`. -/
def qOfInt (i : ℤ) : ℚ := mkRat i 1

/-- Multiplication on `ℚ` as a transparent `mkRat` construction. -/
def qmul (a b : ℚ) : ℚ := mkRat (a.num * b.num) (a.den * b.den)

/-- Addition on `ℚ` as a transparent `mkRat` construction. -/
def qadd (a b : ℚ) : ℚ :=
  mkRat (a.num * Int.ofNat b.den + b.num * Int.ofNat a.den) (a.den * b.den)

/-- Subtraction on `ℚ` as a transparent `mkRat` construction. -/
def qsub (a b : ℚ) : ℚ :=
  mkRat (a.num * Int.ofNat b.den - b.num * Int.ofNat a.den) (a.den * b.den)

/-- Division on `ℚ` as a transparent `Rat.divInt` construction (`qdiv a 0 = 0`,
matching the junk value `a / 0 = 0` of `ℚ`; the embedding checks for zero
denominators separately wherever Python would raise `ZeroDivisionError`). -/
def qdiv (a b : ℚ) : ℚ :=
  Rat.divInt (a.num * Int.ofNat b.den) (Int.ofNat a.den * b.num)

/-- Strict order on `ℚ` by cross multiplication, as a decidable boolean. -/
def qlt (a b : ℚ) : Bool := a.num * Int.ofNat b.den < b.num * Int.ofNat a.den

/-- Little-endian interpretation of a byte list as an unsigned number. -/
def leNat (bs : List Nat) : Nat := bs.foldr (fun b acc => b + 256 * acc) 0

/-- Two's-complement reinterpretation: an unsigned value `u < m` as a signed
integer in `[-m/2, m/2)`. -/
def toSigned (u : Nat) (m : Nat) : Int := if u < m / 2 then (u : Int) else (u : Int) - (m : Int)

/-- IEEE-754 binary64 decoding of 8 little-endian bytes into an exact rational.
A normal number `(s, e, m)` denotes `(-1)^s * (1 + m/2^52) * 2^(e-1023)`, a
subnormal `(-1)^s * (m/2^52) * 2^(-1022)`; the NaN/infinity patterns (`e = 2047`)
lie outside the rational model and decode by the same normal-number formula. -/
def decodeF64 (bs : List Nat) : ℚ :=
  let u : Nat := leNat bs
  let s : Nat := u / 2 ^ 63
  let e : Nat := u / 2 ^ 52 % 2 ^ 11
  let m : Nat := u % 2 ^ 52
  let mag : ℚ :=
    if e = 0 then qdiv (qOfNat m) (qOfNat (2 ^ 1074))
    else qdiv (qmul (qOfNat (2 ^ 52 + m)) (qOfNat (2 ^ e))) (qOfNat (2 ^ 1075))
  if s = 0 then mag else -mag

/-- IEEE-754 binary32 decoding of 4 little-endian bytes into an exact rational
(same conventions as `decodeF64`). -/
def decodeF32 (bs : List Nat) : ℚ :=
  let u : Nat := leNat bs
  let s : Nat := u / 2 ^ 31
  let e : Nat := u / 2 ^ 23 % 2 ^ 8
  let m : Nat := u % 2 ^ 23
  let mag : ℚ :=
    if e = 0 then qdiv (qOfNat m) (qOfNat (2 ^ 149))
    else qdiv (qmul (qOfNat (2 ^ 23 + m)) (qOfNat (2 ^ e))) (qOfNat (2 ^ 150))
  if s = 0 then mag else -mag

/-- Little-endian encoding of an unsigned 16-bit value as 2 bytes. -/
def encU16LE (v : Nat) : List Nat := [v % 256, v / 256 % 256]

/-- Little-endian encoding of an unsigned 64-bit value as 8 bytes. -/
def encU64LE (v : Nat) : List Nat :=
  [v % 256, v / 2 ^ 8 % 256, v / 2 ^ 16 % 256, v / 2 ^ 24 % 256,
   v / 2 ^ 32 % 256, v / 2 ^ 40 % 256, v / 2 ^ 48 % 256, v / 2 ^ 56 % 256]

/-- Modelled from the spec: the cursor state of `apread.binaryReader.BinaryReader`
(the file `binaryReader.py` is not among the sources): an immutable byte buffer
plus a mutable read offset with invariant `pos ≤ buf.length`. -/
structure BinaryReader where
  buf : List Nat
  pos : Nat
  deriving DecidableEq

/-- State-threading monad for the sequential decode: reader state plus Python
exceptions. -/
abbrev DecodeM (α : Type) := StateT BinaryReader (Except PyError) α

/-- Modelled from the spec: a raw read of `n` bytes. Every read requires
`pos + n ≤ buf.length`; violating this fails with `OutOfBounds` and never
returns partial data. -/
def readBytes (n : Nat) : DecodeM (List Nat) := fun r =>
  if r.pos + n ≤ r.buf.length then
    .ok ((r.buf.drop r.pos).take n, { r with pos := r.pos + n })
  else
    .error .outOfBounds

/-- Modelled from the spec: read one unsigned byte. -/
def read_byte : DecodeM Nat := do
  let bs ← readBytes 1
  pure (leNat bs)

/-- Modelled from the spec: read one signed byte. -/
def read_char : DecodeM Int := do
  let bs ← readBytes 1
  pure (toSigned (leNat bs) 256)

/-- Modelled from the spec: read a signed little-endian 16-bit integer. -/
def read_int16 : DecodeM Int := do
  let bs ← readBytes 2
  pure (toSigned (leNat bs) 65536)

/-- Modelled from the spec: read a signed little-endian 32-bit integer. -/
def read_int32 : DecodeM Int := do
  let bs ← readBytes 4
  pure (toSigned (leNat bs) 4294967296)

/-- Modelled from the spec: read an 8-byte IEEE double. -/
def read_double : DecodeM ℚ := do
  let bs ← readBytes 8
  pure (decodeF64 bs)

/-- Modelled from the spec: read a 4-byte IEEE float. -/
def read_float : DecodeM ℚ := do
  let bs ← readBytes 4
  pure (decodeF32 bs)

/-- Trailing control/pad bytes (code points below 32, which includes NUL) are
trimmed from decoded text. -/
def trimTrailingCtl (cs : List Char) : List Char :=
  (cs.reverse.dropWhile (fun c => c.toNat < 32)).reverse

/-- Modelled from the spec: `read_string n` reads exactly `n` bytes, decodes
them as text and trims trailing control/pad bytes. -/
def read_string (n : Nat) : DecodeM String := do
  let bs ← readBytes n
  pure (String.mk (trimTrailingCtl (bs.map Char.ofNat)))

/-- Modelled from the spec: the current absolute read offset. -/
def tell : DecodeM Nat := fun r => .ok (r.pos, r)

/-- Modelled from the spec: absolute repositioning of the cursor. Seeking
backward is legal; a target outside `[0, buf.length]` fails with `OutOfBounds`. -/
def seek (t : Int) : DecodeM Unit := fun r =>
  if 0 ≤ t ∧ t ≤ (r.buf.length : Int) then .ok ((), { r with pos := t.toNat })
  else .error .outOfBounds

/-- Python `os.path.basename` (POSIX): the part of the path after the last
separator. -/
def pyBasename (p : String) : String :=
  String.mk ((p.data.reverse.takeWhile (fun c => c ≠ '/')).reverse)

/-- Helper for `pySplitextStem`: remove the suffix starting at the last dot of a
character list known to contain a dot. -/
def dropLastDotSuffix (cs : List Char) : List Char :=
  let tailLen := (cs.reverse.takeWhile (fun c => c ≠ '.')).length
  if tailLen = cs.length then cs else cs.take (cs.length - tailLen - 1)

/-- Python `os.path.splitext(...)[0]` on a bare file name: the extension starts
at the last dot, except that leading dots never begin an extension. -/
def pySplitextStem (p : String) : String :=
  let cs := p.data
  let lead := cs.takeWhile (fun c => c = '.')
  let rest := cs.drop lead.length
  if rest.any (fun c => c = '.') then String.mk (lead ++ dropLastDotSuffix rest) else p

/-- Python `name.replace(' ', '_')`: every space becomes an underscore. -/
def pyReplaceSpace (s : String) : String :=
  String.mk (s.data.map (fun c => if c = ' ' then '_' else c))

/-- Floor of a rational as an integer (`Int.fdiv` is floor division). -/
def ratFloor (q : ℚ) : Int := Int.fdiv q.num (q.den : Int)

/-- Round a rational to the nearest integer, ties to even (the rounding used by
Python float formatting). -/
def roundHalfToEven (q : ℚ) : Int :=
  let f := ratFloor q
  let r := qsub q (qOfInt f)
  if qlt r (mkRat 1 2) then f
  else if qlt (mkRat 1 2) r then f + 1
  else if f % 2 = 0 then f else f + 1

/-- Zero-pad a value below 1000 to three decimal digits. -/
def pad3 (n : Nat) : String :=
  if n < 10 then "00" ++ toString n else if n < 100 then "0" ++ toString n else toString n

/-- Python `f"{q:.3f}"`: fixed-point formatting with three decimals. -/
def format3f (q : ℚ) : String :=
  let n := roundHalfToEven (qmul q (qOfNat 1000))
  let sign := if n < 0 then "-" else ""
  sign ++ toString (n.natAbs / 1000) ++ "." ++ pad3 (n.natAbs % 1000)

/-- Extended channel header (`Channel.readExtHeader` in `entries.py`): a
fixed-shape record of per-channel calibration/device metadata. The defaults are
exactly what an all-zero byte block decodes to. -/
structure ExtHeader where
  T0 : ℚ := 0
  dt : ℚ := 0
  SensorType : Int := 0
  SupplyVoltage : Int := 0
  FiltChar : Int := 0
  FiltFreq : Int := 0
  TareVal : ℚ := 0
  ZeroVal : ℚ := 0
  MeasRange : ℚ := 0
  InChar : List ℚ := [0, 0, 0, 0]
  SerNo : String := ""
  PhysUnit : String := ""
  NativeUnit : String := ""
  Slot : Int := 0
  SubSlot : Int := 0
  AmpType : Int := 0
  APType : Int := 0
  kFactor : ℚ := 0
  bFactor : ℚ := 0
  MeasSig : Int := 0
  AmpInput : Int := 0
  HPFilt : Int := 0
  OLImportInfo : Nat := 0
  ScaleType : Nat := 0
  SoftwareTareVal : ℚ := 0
  WriteProtected : Nat := 0
  NominalRange : ℚ := 0
  CLCFactor : ℚ := 0
  ExportFormat : Nat := 0
  deriving DecidableEq

/-- Fixed-order field sequence of the extended header, translated read by read
from `Channel.readExtHeader` (`entries.py` lines 134-169), including the 3-byte
alignment pad after `WriteProtected` and the terminal 7-byte reserved pad. -/
def readExtFields : DecodeM ExtHeader := do
  let t0 ← read_double
  let dt ← read_double
  let sensorType ← read_int16
  let supplyVoltage ← read_int16
  let filtChar ← read_int16
  let filtFreq ← read_int16
  let tareVal ← read_float
  let zeroVal ← read_float
  let measRange ← read_float
  let inChar1 ← read_float
  let inChar2 ← read_float
  let inChar3 ← read_float
  let inChar4 ← read_float
  let serNo ← read_string 32
  let physUnit ← read_string 8
  let nativeUnit ← read_string 8
  let slot ← read_int16
  let subSlot ← read_int16
  let ampType ← read_int16
  let apType ← read_int16
  let kFactor ← read_float
  let bFactor ← read_float
  let measSig ← read_int16
  let ampInput ← read_int16
  let hpFilt ← read_int16
  let olImportInfo ← read_byte
  let scaleType ← read_byte
  let softwareTareVal ← read_float
  let writeProtected ← read_byte
  let _padding ← read_string 3
  let nominalRange ← read_float
  let clcFactor ← read_float
  let exportFormat ← read_byte
  let _reserve ← read_string 7
  pure { T0 := t0, dt := dt, SensorType := sensorType, SupplyVoltage := supplyVoltage,
         FiltChar := filtChar, FiltFreq := filtFreq, TareVal := tareVal, ZeroVal := zeroVal,
         MeasRange := measRange, InChar := [inChar1, inChar2, inChar3, inChar4],
         SerNo := serNo, PhysUnit := physUnit, NativeUnit := nativeUnit,
         Slot := slot, SubSlot := subSlot, AmpType := ampType, APType := apType,
         kFactor := kFactor, bFactor := bFactor, MeasSig := measSig, AmpInput := ampInput,
         HPFilt := hpFilt, OLImportInfo := olImportInfo, ScaleType := scaleType,
         SoftwareTareVal := softwareTareVal, WriteProtected := writeProtected,
         NominalRange := nominalRange, CLCFactor := clcFactor, ExportFormat := exportFormat }

/-- `Channel.readExtHeader` (`entries.py` lines 115-187): read the fixed field
sequence, then cross-check the consumed byte count against the declared
`nHdrBytes`; on mismatch, reset the read position to `start + nHdrBytes` and
force `ExportFormat = 0`. -/
def readExtHeader (nHdrBytes : Int) : DecodeM ExtHeader := do
  let pos0 ← tell
  let hdr ← readExtFields
  let posN ← tell
  if ((posN : Int) - (pos0 : Int)) ≠ nHdrBytes then do
    seek ((pos0 : Int) + nHdrBytes)
    pure { hdr with ExportFormat := 0 }
  else
    pure hdr

/-- Precision resolution from `Channel.__init__` (`entries.py` lines 88-93):
`precDict = {0:8, 1:4, 2:2}`; a `KeyError` on any other value is caught and
defaults to double precision (8 bytes). -/
def resolvePrecision (ef : Nat) : Nat :=
  if ef = 0 then 8 else if ef = 1 then 4 else if ef = 2 then 2 else 8

/-- Attributes of a decoded `Channel` (`entries.py` lines 41-113), minus the
back-reference to a time channel. Python only creates the `data` attribute once
`readData` runs; here `data` is a plain field, populated by the caller from
`readData`'s result. -/
structure ChannelCore where
  verbose : Bool := false
  filterData : Bool := false
  fastload : Bool := true
  isTime : Bool := false
  num : Int := 0
  length : Int := 0
  Name : String := ""
  fileName : String := ""
  fullName : String := ""
  unit : String := ""
  comment : String := ""
  format : Int := 0
  dw : Int := 0
  time : ℚ := 0
  nHdrBytes : Int := 0
  extHeader : ExtHeader := {}
  precision : Nat := 8
  lmode : Int := 0
  scale : Int := 0
  npoi : Nat := 0
  formula : String := ""
  sensorInfo : String := ""
  broken : Bool := false
  data : List ℚ := []
  deriving DecidableEq

/-- A channel together with its optional back-reference to the time channel of
its group (`self.Time` in Python, `None` until the linker assigns it). -/
structure Channel extends ChannelCore where
  Time : Option ChannelCore := none
  deriving DecidableEq

/-- Discard `n` doubles (`for i in range(self.npoi): reader.read_double()`). -/
def discardDoubles : Nat → DecodeM Unit
  | 0 => pure ()
  | n + 1 => do
    let _ ← read_double
    discardDoubles n

/-- `Channel.__init__` (`entries.py` lines 41-113): decode one channel header
from the stream. `fileName` is supplied by the caller, not read from the
stream. The bulk sample body is not read here (`readData` is a separate step). -/
def channelInit (fileName : String) (verbose filterData fastload : Bool) :
    DecodeM Channel := do
  let num ← read_int16
  let length ← read_int32
  let nameLen ← read_int16
  let name ← read_string nameLen.toNat
  let fileStem := pySplitextStem (pyBasename fileName)
  let tName := pyReplaceSpace name
  let fullName := fileName ++ "." ++ tName
  let unitLen ← read_int16
  let unit ← read_string unitLen.toNat
  let commentLen ← read_int16
  let comment ← read_string commentLen.toNat
  let format ← read_int16
  let dw ← read_int16
  let time ← read_double
  let nHdrBytes ← read_int32
  let extHeader ← readExtHeader nHdrBytes
  let precision := resolvePrecision extHeader.ExportFormat
  let lmode ← read_char
  let scale ← read_char
  let npoi ← read_byte
  discardDoubles npoi
  let _thermoType ← read_int16
  let formulaLen ← read_int16
  let formula ← read_string formulaLen.toNat
  let sensorLen ← read_int32
  let sensorInfo ← read_string sensorLen.toNat
  pure { verbose := verbose, filterData := filterData, fastload := fastload,
         isTime := false, num := num, length := length, Name := name,
         fileName := fileStem, fullName := fullName, unit := unit,
         comment := comment, format := format, dw := dw, time := time,
         nHdrBytes := nHdrBytes, extHeader := extHeader, precision := precision,
         lmode := lmode, scale := scale, npoi := npoi, formula := formula,
         sensorInfo := sensorInfo, broken := false, data := [], Time := none }

/-- Read consecutive `width`-byte chunks, at most `count` of them, stopping
early when fewer than `width` bytes remain (the `numpy.fromfile` behaviour of
reading only complete items). -/
def readChunks (width : Nat) : Nat → List Nat → List (List Nat)
  | 0, _ => []
  | k + 1, bytes =>
    if width ≤ bytes.length then bytes.take width :: readChunks width k (bytes.drop width)
    else []

/-- `numpy.fromfile(reader.buf, dtype, count)` on the shared stream: consume up
to `count` complete `width`-byte items from the current position (all remaining
items when `count` is negative); never raises on short data. -/
def npFromfile (width : Nat) (count : Int) : DecodeM (List (List Nat)) := fun r =>
  let avail := (r.buf.length - r.pos) / width
  let k := if count < 0 then avail else count.toNat
  let chunks := readChunks width k (r.buf.drop r.pos)
  .ok (chunks, { r with pos := r.pos + width * chunks.length })

/-- Run a reader action `n` times, collecting the results (the Python
`for i in range(n)` read loops of the non-fastload path). -/
def readN {α : Type} (act : DecodeM α) : Nat → DecodeM (List α)
  | 0 => pure []
  | n + 1 => do
    let x ← act
    let xs ← readN act n
    pure (x :: xs)

/-- `Channel.filter` with its default mode (`entries.py` lines 233-238):
`scipy.signal.lfilter([1/50]*50, 1, data)`, i.e. a trailing moving average of
window 50 with zero initial conditions. -/
def channelFilter (xs : List ℚ) : List ℚ :=
  (List.range xs.length).map
    (fun i => (((List.range (min (i + 1) 50)).map (fun j => xs.getD (i - j) 0)).sum) / 50)

/-- `Channel.readData` (`entries.py` lines 189-231): decode the bulk sample
body at the current stream position. Returns `none` when Python would leave
`self.data` unset (a broken channel, or a precision outside {8, 4, 2}); with
`filterData` set, an unset `self.data` would make `self.filter` raise
`AttributeError`. -/
def readData (c : Channel) : DecodeM (Option (List ℚ)) := do
  if c.broken then
    pure none
  else
    let data? ←
      if c.fastload then
        if c.precision = 8 || c.precision = 4 then do
          let chunks ← npFromfile c.precision c.length
          pure (some (chunks.map (fun bs =>
            if c.precision = 8 then decodeF64 bs else decodeF32 bs)))
        else if c.precision = 2 then do
          let minValue ← read_double
          let maxValue ← read_double
          let sf := qdiv (qsub maxValue minValue) (qOfNat 32767)
          let chunks ← npFromfile 2 c.length
          pure (some (chunks.map (fun bs => qadd (qmul (qOfNat (leNat bs)) sf) minValue)))
        else
          pure none
      else
        if c.precision = 8 then do
          let xs ← readN read_double c.length.toNat
          pure (some xs)
        else if c.precision = 4 then do
          let xs ← readN read_float c.length.toNat
          pure (some xs)
        else if c.precision = 2 then do
          let minValue ← read_double
          let maxValue ← read_double
          let sf := qdiv (qsub maxValue minValue) (qOfNat 32767)
          let vs ← readN read_int16 c.length.toNat
          pure (some (vs.map (fun v => qadd (qmul (qOfInt v) sf) minValue)))
        else
          pure none
    match data?, c.filterData with
    | some d, true => pure (some (channelFilter d))
    | none, true => throw PyError.attributeError
    | d?, false => pure d?

/-- A group of channels sharing a sample length (`Group` in `entries.py`). -/
structure Group where
  Channels : List Channel
  Name : String
  ChannelX : Option Channel
  ChannelsY : List Channel
  intervalstr : String
  interval : ℚ
  frequency : ℚ
  fileName : String
  fullName : String
  deriving DecidableEq

/-- `Group.__init__` (`entries.py` lines 413-461). The time channel is the
first channel flagged `isTime`. When none is flagged, Python only warns, so
`self.Name` is never assigned and the later `self.Name.replace` raises
`AttributeError`. `timeC.data[1]` raises `IndexError` on a time channel with
fewer than two samples, and `1/timeC.data[1]` raises `ZeroDivisionError` on a
zero second sample (after `intervalstr`/`interval` are computed). The
unit/factor inference is the source's sequence of non-exclusive `if`s. -/
def groupInit (channels : List Channel) (fileName : String) : Except PyError Group :=
  match channels.find? (fun c => c.isTime) with
  | none => .error .attributeError
  | some timeC =>
    let name := timeC.Name
    let fileStem := pySplitextStem (pyBasename fileName)
    let tName := pyReplaceSpace name
    let fullName := fileName ++ "." ++ tName
    let channelsY := channels.filter (fun c => !c.isTime)
    match timeC.data[1]? with
    | none => .error .indexError
    | some d1 =>
      let uf0 := ("s", qOfNat 1)
      let uf1 := if qlt d1 (qOfNat 1) then ("ms", qOfNat 1000) else uf0
      let uf2 := if qlt d1 (mkRat 1 1000) then ("ns", qOfNat 1000000) else uf1
      let uf3 := if qlt d1 (mkRat 1 1000000) then ("μs", qOfNat 1000000000) else uf2
      let intervalstr := format3f (qmul d1 uf3.2) ++ uf3.1
      let interval := qdiv d1 (qOfNat 1000)
      if d1 = 0 then .error .zeroDivisionError
      else
        .ok { Channels := channels, Name := name, ChannelX := some timeC,
              ChannelsY := channelsY, intervalstr := intervalstr,
              interval := interval, frequency := qdiv (qOfNat 1) d1,
              fileName := fileStem, fullName := fullName }

/-- Modelled from the spec: the channel-to-group linking step of the
orchestrator (`apReader.py`, a file of this repository that is not among the
sources; only `entries.py` is). Per the spec, over one length-partition it
builds the `Group` and gives every non-time channel a back-reference to the
group's time channel (`chan.Time`), absent when `ChannelX` is absent. -/
def linkGroup (channels : List Channel) (fileName : String) : Except PyError Group := do
  let g ← groupInit channels fileName
  pure { g with ChannelsY :=
    g.ChannelsY.map (fun c => { c with Time := g.ChannelX.map Channel.toChannelCore }) }

/-! ### Concrete fixtures

Test vectors used by the witnesses and counterexamples below: hand-assembled
byte buffers and channel values, mirroring the test scenarios of the
specification. -/

/-- Little-endian encoding of an unsigned 32-bit value as 4 bytes. -/
def encU32LE (v : Nat) : List Nat :=
  [v % 256, v / 2 ^ 8 % 256, v / 2 ^ 16 % 256, v / 2 ^ 24 % 256]

/-- A run of `n` zero bytes. -/
def zeros (n : Nat) : List Nat := List.replicate n 0

/-- Channel fixture: only the fields that `Group.__init__` inspects are set;
the remaining header fields keep their defaults. -/
def mkChannel (name : String) (isTime : Bool) (data : List ℚ) : Channel :=
  { Name := name, isTime := isTime, data := data }

/-- IEEE bytes of the double `100.0` (sign 0, exponent 1029, mantissa `9·2^48`). -/
def bytes100 : List Nat := encU64LE 0x4059000000000000

/-- IEEE bytes of the double `32767.0` (sign 0, exponent 1037, mantissa
`2^52 - 2^38`). -/
def bytes32767 : List Nat := encU64LE (1038 * 2 ^ 52 - 2 ^ 38)

/-- Reader for the precision-2 body `MinValue = 0.0`, `MaxValue = 100.0`,
raw samples `0` and `32767`. -/
def c4reader : BinaryReader := { buf := zeros 8 ++ bytes100 ++ [0, 0, 255, 127], pos := 0 }

/-- Precision-2 channel expecting `n` samples (fastload, no filtering). -/
def prec2Channel (n : Nat) : Channel :=
  { precision := 2, length := (n : Int), fastload := true, broken := false }

/-- Reader for the precision-2 body `MinValue = 0.0`, `MaxValue = 32767.0`
(scale factor exactly 1), one raw sample with bytes `[0x00, 0x80]`, i.e.
`32768` unsigned / `-32768` signed. -/
def c10reader : BinaryReader := { buf := zeros 8 ++ bytes32767 ++ [0, 128], pos := 0 }

/-- Time channel of length 2 with a one-second interval. -/
def chT : Channel := mkChannel "Time" true [0, qOfNat 1]

/-- First data channel fixture. -/
def chA : Channel := mkChannel "a" false [0, qOfNat 1]

/-- Second data channel fixture. -/
def chB : Channel := mkChannel "b" false [0, qOfNat 1]

/-- The group the linker produces from `[chT, chA, chB]` and file `"f"`. -/
def g8 : Group :=
  { Channels := [chT, chA, chB], Name := "Time", ChannelX := some chT,
    ChannelsY := [{ chA with Time := some chT.toChannelCore },
                  { chB with Time := some chT.toChannelCore }],
    intervalstr := "1.000s", interval := mkRat 1 1000, frequency := qOfNat 1,
    fileName := "f", fullName := "f.Time" }

/-- Time channel whose second sample is `0.5`. -/
def chHalf : Channel := mkChannel "Time" true [0, mkRat 1 2]

/-- The group `groupInit` produces from `[chHalf]` and file `"f"`. -/
def gHalf : Group :=
  { Channels := [chHalf], Name := "Time", ChannelX := some chHalf, ChannelsY := [],
    intervalstr := "500.000ms", interval := mkRat 1 2000, frequency := qOfNat 2,
    fileName := "f", fullName := "f.Time" }

/-- Channel list whose time channel has second sample `0.0005` (the spec's
`[0.0, 0.0005, 0.001]` scenario). -/
def halfMsChannels : List Channel :=
  [mkChannel "Time" true [0, mkRat 1 2000, mkRat 1 1000]]

/-- The group `groupInit` produces from `halfMsChannels`: the `0.0005 < 1e-3`
check also fires, so the unit is nanoseconds. -/
def gHalfMs : Group :=
  { Channels := halfMsChannels, Name := "Time",
    ChannelX := some (mkChannel "Time" true [0, mkRat 1 2000, mkRat 1 1000]),
    ChannelsY := [], intervalstr := "500.000ns", interval := mkRat 1 2000000,
    frequency := qOfNat 2000, fileName := "unknown", fullName := "unknown.Time" }

/-- Byte buffer of a complete channel record: index 7, length 5, name `"a b"`,
empty unit/comment/formula/sensor strings, zero time, a consistent extended
header (`nHdrBytes = 148`, all fields zero), no calibration points. -/
def c9buf : List Nat :=
  encU16LE 7 ++ encU32LE 5 ++ encU16LE 3 ++ [97, 32, 98] ++ encU16LE 0 ++ encU16LE 0 ++
  encU16LE 0 ++ encU16LE 0 ++ zeros 8 ++ encU32LE 148 ++ zeros 148 ++ [0, 0, 0] ++
  encU16LE 0 ++ encU16LE 0 ++ encU32LE 0

/-- The channel decoded from `c9buf` with caller-supplied file name
`"dir/data.bin"`: `fileName` holds the stem `"data"`, but `fullName` is built
from the raw `fileName` argument. -/
def c9chan : Channel :=
  { verbose := false, filterData := false, fastload := true, isTime := false,
    num := 7, length := 5, Name := "a b", fileName := "data",
    fullName := "dir/data.bin.a_b", unit := "", comment := "", format := 0,
    dw := 0, time := 0, nHdrBytes := 148, extHeader := {}, precision := 8,
    lmode := 0, scale := 0, npoi := 0, formula := "", sensorInfo := "",
    broken := false, data := [], Time := none }

/-! ### Bridge lemmas

The transparent `q`-operations coincide with the standard `ℚ` operations. -/

theorem qOfNat_eq (n : ℕ) : qOfNat n = (n : ℚ) := by
  simp [qOfNat, Rat.mkRat_one, Int.ofNat_eq_natCast]

theorem qOfInt_eq (i : ℤ) : qOfInt i = (i : ℚ) := by
  simp [qOfInt, Rat.mkRat_one]

theorem qmul_eq (a b : ℚ) : qmul a b = a * b := by
  unfold qmul
  rw [Rat.mkRat_eq_div]
  push_cast
  conv_rhs => rw [← Rat.num_div_den a, ← Rat.num_div_den b, div_mul_div_comm]

theorem qadd_eq (a b : ℚ) : qadd a b = a + b := by
  unfold qadd
  rw [Rat.mkRat_eq_div]
  push_cast [Int.ofNat_eq_natCast]
  conv_rhs =>
    rw [← Rat.num_div_den a, ← Rat.num_div_den b,
      div_add_div _ _ (by exact_mod_cast a.den_nz) (by exact_mod_cast b.den_nz)]
  ring_nf

theorem qsub_eq (a b : ℚ) : qsub a b = a - b := by
  unfold qsub
  rw [Rat.mkRat_eq_div]
  push_cast [Int.ofNat_eq_natCast]
  conv_rhs =>
    rw [← Rat.num_div_den a, ← Rat.num_div_den b,
      div_sub_div _ _ (by exact_mod_cast a.den_nz) (by exact_mod_cast b.den_nz)]
  ring_nf

theorem qdiv_eq (a b : ℚ) : qdiv a b = a / b := by
  rw [Rat.div_def']
  simp [qdiv, Int.ofNat_eq_natCast]

theorem qlt_iff (a b : ℚ) : qlt a b = true ↔ a < b := by
  rw [Rat.lt_def]
  simp [qlt, Int.ofNat_eq_natCast]

/-! ### Helper lemmas for symbolic execution of the reader monad -/

theorem bind_apply {α β : Type} (x : DecodeM α) (f : α → DecodeM β) (r : BinaryReader) :
    (x >>= f) r = match x r with
      | .ok p => f p.1 p.2
      | .error e => .error e := by
  show StateT.bind x f r = _
  cases h : x r with
  | ok p =>
    cases p with
    | mk a s =>
      simp only [StateT.bind, h]
      rfl
  | error e =>
    simp only [StateT.bind, h]
    rfl

theorem pure_apply {α : Type} (a : α) (r : BinaryReader) :
    (pure a : DecodeM α) r = .ok (a, r) := rfl

theorem run_bind_ok {α β : Type} (x : DecodeM α) (f : α → DecodeM β) (r : BinaryReader)
    (a : α) (r' : BinaryReader) (out : Except PyError (β × BinaryReader))
    (hx : x r = .ok (a, r')) (hf : f a r' = out) : (x >>= f) r = out := by
  rw [bind_apply, hx]
  exact hf

/-- Success shape of `groupInit`. -/
theorem groupInit_ok_shape (channels : List Channel) (fn : String) (g : Group)
    (h : groupInit channels fn = .ok g) :
    ∃ timeC d1, channels.find? (fun c => c.isTime) = some timeC ∧
      timeC.data[1]? = some d1 ∧ d1 ≠ 0 ∧
      g.Channels = channels ∧
      g.Name = timeC.Name ∧
      g.ChannelX = some timeC ∧
      g.ChannelsY = channels.filter (fun c => !c.isTime) ∧
      g.intervalstr =
        (let uf :=
          if qlt d1 (mkRat 1 1000000) then ("μs", qOfNat 1000000000)
          else if qlt d1 (mkRat 1 1000) then ("ns", qOfNat 1000000)
          else if qlt d1 (qOfNat 1) then ("ms", qOfNat 1000)
          else ("s", qOfNat 1)
        format3f (qmul d1 uf.2) ++ uf.1) ∧
      g.interval = qdiv d1 (qOfNat 1000) ∧
      g.frequency = qdiv (qOfNat 1) d1 := by
  unfold groupInit at h
  split at h
  · exact absurd h (by simp)
  next timeC hfind =>
    dsimp only at h
    split at h
    · exact absurd h (by simp)
    next d1 hd =>
      split at h
      · exact absurd h (by simp)
      next hz =>
        injection h with h'
        refine ⟨timeC, d1, hfind, hd, hz, ?_⟩
        rw [← h']
        exact ⟨rfl, rfl, rfl, rfl, rfl, rfl, rfl⟩


theorem mkRat_one_thousandth : (mkRat 1 1000 : ℚ) = 1 / 1000 := by
  rw [Rat.mkRat_eq_div]
  norm_num

theorem mkRat_one_millionth : (mkRat 1 1000000 : ℚ) = 1 / 1000000 := by
  rw [Rat.mkRat_eq_div]
  norm_num

set_option maxRecDepth 4000 in
/-- C1: with no channel flagged `isTime`, `Group.__init__` raises
`AttributeError` (`self.Name` is never assigned) instead of returning a group
with an absent `ChannelX`. -/
theorem groupInit_no_time_attributeError :
    groupInit [mkChannel "chan1" false [0, 1]] "unknown" = .error .attributeError ∧
    (groupInit [mkChannel "chan1" false [0, 1]] "unknown").toOption = none := by
  decide

set_option maxRecDepth 4000 in
/-- C2 counterexample: a designated time channel with a single sample makes
`Group.__init__` fail with `IndexError`; no group is produced. -/
theorem groupInit_short_time_counterexample :
    (groupInit [mkChannel "Time" true [0]] "unknown").toOption = none := by
  decide

/-- C2 amended: constructing a `Group` whose designated time channel has fewer
than two samples raises `IndexError` at `timeC.data[1]`. -/
theorem groupInit_short_time_indexError (channels : List Channel) (fn : String)
    (timeC : Channel) (hfind : channels.find? (fun c => c.isTime) = some timeC)
    (hlen : timeC.data.length < 2) :
    groupInit channels fn = .error .indexError := by
  unfold groupInit
  rw [hfind]
  dsimp only
  rw [List.getElem?_eq_none (by omega : timeC.data.length ≤ 1)]

set_option maxRecDepth 4000 in
theorem groupInit_short_time_indexError_witness :
    groupInit [mkChannel "Time" true [qOfNat 3]] "data" = .error .indexError :=
  groupInit_short_time_indexError _ _ (mkChannel "Time" true [qOfNat 3])
    (by decide) (by decide)

/-- C5: for every successfully constructed group, the unit/factor cascade on
the second time sample resolves as nested (not mutually exclusive) threshold
checks, and the frequency is the reciprocal of that sample. -/
theorem groupInit_unit_cascade (channels : List Channel) (fn : String) (g : Group)
    (h : groupInit channels fn = .ok g) :
    ∃ timeC, channels.find? (fun c => c.isTime) = some timeC ∧
      ∃ d, timeC.data[1]? = some d ∧
        g.frequency = 1 / d ∧
        g.intervalstr =
          (if d < 1 / 1000000 then format3f (d * 1000000000) ++ "μs"
           else if d < 1 / 1000 then format3f (d * 1000000) ++ "ns"
           else if d < 1 then format3f (d * 1000) ++ "ms"
           else format3f d ++ "s") := by
  obtain ⟨timeC, d, hfind, hd, hz, _, _, _, _, hstr, _, hfreq⟩ :=
    groupInit_ok_shape channels fn g h
  refine ⟨timeC, hfind, d, hd, ?_, ?_⟩
  · rw [hfreq, qdiv_eq, qOfNat_eq, Nat.cast_one]
  · rw [hstr]
    simp only [qlt_iff, qmul_eq, qOfNat_eq, mkRat_one_thousandth, mkRat_one_millionth,
      Nat.cast_ofNat, Nat.cast_one]
    split_ifs <;> simp [mul_one]

set_option maxRecDepth 4000 in
theorem groupInit_unit_cascade_witness :
    ∃ timeC, [chHalf].find? (fun c => c.isTime) = some timeC ∧
      ∃ d, timeC.data[1]? = some d ∧
        gHalf.frequency = 1 / d ∧
        gHalf.intervalstr =
          (if d < 1 / 1000000 then format3f (d * 1000000000) ++ "μs"
           else if d < 1 / 1000 then format3f (d * 1000000) ++ "ns"
           else if d < 1 then format3f (d * 1000) ++ "ms"
           else format3f d ++ "s") :=
  groupInit_unit_cascade [chHalf] "f" gHalf (by decide)

set_option maxRecDepth 4000 in
/-- C6 counterexample: with second time sample `0.0005` the code formats the
interval as `"500.000ns"`, not `"0.500ms"`. -/
theorem groupInit_halfms_counterexample :
    (groupInit halfMsChannels "unknown").toOption.map Group.intervalstr = some "500.000ns" ∧
    ("500.000ns" : String) ≠ "0.500ms" := by
  decide

set_option maxRecDepth 4000 in
/-- C6 amended: with second time sample `0.0005` the `0.0005 < 1e-3` check also
fires after the `< 1` check, so the group is constructed with unit `"ns"` and
`intervalstr = "500.000ns"`. -/
theorem groupInit_halfms_ns :
    groupInit halfMsChannels "unknown" = .ok gHalfMs := by
  decide

/-- C8: every channel of the partition that is not flagged time is placed in
`ChannelsY`, with its `Time` field referring to the linked `ChannelX`. -/
theorem linkGroup_channelsY_backref (channels : List Channel) (fn : String) (g : Group)
    (h : linkGroup channels fn = .ok g) :
    g.ChannelsY = (channels.filter (fun c => !c.isTime)).map
        (fun c => { c with Time := g.ChannelX.map Channel.toChannelCore }) ∧
    ∀ c ∈ g.ChannelsY, c.Time = g.ChannelX.map Channel.toChannelCore := by
  unfold linkGroup at h
  cases hg : groupInit channels fn with
  | error e => rw [hg] at h; exact absurd h (by simp [Except.bind])
  | ok g0 =>
    rw [hg] at h
    obtain ⟨timeC, d, hfind, hd, hz, _, _, hx, hy, _, _, _⟩ :=
      groupInit_ok_shape channels fn g0 hg
    have h' : ({ g0 with ChannelsY := (g0.ChannelsY.map
        (fun c => { c with Time := g0.ChannelX.map Channel.toChannelCore })) } : Group) = g := by
      injection h
    subst h'
    constructor
    · dsimp only
      rw [hy, hx]
    · intro c hc
      dsimp only at hc ⊢
      rw [List.mem_map] at hc
      obtain ⟨c0, _, rfl⟩ := hc
      rfl

set_option maxRecDepth 4000 in
theorem linkGroup_channelsY_backref_witness :
    g8.ChannelsY = ([chT, chA, chB].filter (fun c => !c.isTime)).map
        (fun c => { c with Time := g8.ChannelX.map Channel.toChannelCore }) ∧
    ∀ c ∈ g8.ChannelsY, c.Time = g8.ChannelX.map Channel.toChannelCore :=
  linkGroup_channelsY_backref [chT, chA, chB] "f" g8 (by decide)

/-! ### Body-decode lemmas -/

theorem read_double_ok (r : BinaryReader) (h : r.pos + 8 ≤ r.buf.length) :
    read_double r = .ok (decodeF64 ((r.buf.drop r.pos).take 8), { r with pos := r.pos + 8 }) := by
  rw [read_double, bind_apply]
  simp [readBytes, h, pure_apply]

theorem npFromfile_zero (w : Nat) (r : BinaryReader) : npFromfile w 0 r = .ok ([], r) := by
  simp [npFromfile, readChunks]

theorem leNat_encU16LE (v : Nat) (hv : v < 65536) : leNat (encU16LE v) = v := by
  simp only [encU16LE, leNat, List.foldr]
  have h256 : v / 256 < 256 := by omega
  rw [Nat.mod_eq_of_lt h256]
  omega

theorem length_flatMap_encU16LE (raws : List Nat) :
    (raws.flatMap encU16LE).length = 2 * raws.length := by
  induction raws with
  | nil => rfl
  | cons v t ih => simp [List.flatMap_cons, encU16LE, ih]; omega

theorem readChunks_flatMap_encU16LE (raws : List Nat) :
    readChunks 2 raws.length (raws.flatMap encU16LE) = raws.map encU16LE := by
  induction raws with
  | nil => rfl
  | cons v t ih =>
    rw [List.flatMap_cons, List.length_cons, List.map_cons, readChunks]
    rw [if_pos (by simp [encU16LE, length_flatMap_encU16LE])]
    have h2 : (encU16LE v).length = 2 := rfl
    rw [← h2, List.take_left, List.drop_left, h2, ih]

/-- C7 amended: a zero-length body yields no samples; precisions 8 and 4
consume nothing, while precision 2 still consumes the 16 bytes of
`MinValue`/`MaxValue` before the empty sample block. -/
theorem readData_len0 (c : Channel) (r : BinaryReader)
    (hb : c.broken = false) (hl : c.length = 0) :
    ((c.precision = 8 ∨ c.precision = 4) → readData c r = .ok (some [], r)) ∧
    (c.precision = 2 → r.pos + 16 ≤ r.buf.length →
      readData c r = .ok (some [], { r with pos := r.pos + 16 })) := by
  constructor
  · intro hp
    cases hf : c.fastload with
    | true =>
      have hp' : (c.precision = 8 || c.precision = 4) = true := by
        rcases hp with h | h <;> simp [h]
      rw [readData]
      simp only [hb, Bool.false_eq_true, if_false, hf, if_true, hp', hl]
      rw [bind_apply]
      rw [npFromfile_zero]
      cases hfd : c.filterData <;> simp [channelFilter, pure_apply]
    | false =>
      rcases hp with h | h <;>
        · rw [readData]
          simp only [hb, Bool.false_eq_true, if_false, hf, hl, h]
          norm_num
          rw [bind_apply]
          simp only [Int.toNat_zero, readN, pure_apply]
          cases hfd : c.filterData <;> simp [channelFilter, pure_apply]
  · intro hp hle
    have h1 : read_double r =
        .ok (decodeF64 ((r.buf.drop r.pos).take 8), { r with pos := r.pos + 8 }) :=
      read_double_ok r (by omega)
    have h2 : read_double { r with pos := r.pos + 8 } =
        .ok (decodeF64 ((r.buf.drop (r.pos + 8)).take 8), { r with pos := r.pos + 8 + 8 }) := by
      rw [read_double_ok _ (by simp; omega)]
    cases hf : c.fastload with
    | true =>
      rw [readData]
      simp only [hb, Bool.false_eq_true, if_false, hf, if_true, hp, hl]
      norm_num
      try simp only [bind_assoc]
      refine run_bind_ok _ _ _ _ _ _ h1 ?_
      refine run_bind_ok _ _ _ _ _ _ h2 ?_
      rw [bind_apply]
      rw [npFromfile_zero]
      have hpos : r.pos + 8 + 8 = r.pos + 16 := by omega
      cases hfd : c.filterData <;> simp [channelFilter, pure_apply, hpos]
    | false =>
      rw [readData]
      simp only [hb, Bool.false_eq_true, if_false, hf, hp, hl]
      norm_num
      try simp only [bind_assoc]
      refine run_bind_ok _ _ _ _ _ _ h1 ?_
      refine run_bind_ok _ _ _ _ _ _ h2 ?_
      rw [bind_apply]
      simp only [Int.toNat_zero, readN, pure_apply]
      have hpos : r.pos + 8 + 8 = r.pos + 16 := by omega
      cases hfd : c.filterData <;> simp [channelFilter, pure_apply, hpos]

set_option maxRecDepth 4000 in
/-- C7 counterexample: a non-broken precision-2 channel of length 0 produces an
empty sample sequence but still consumes the 16 bytes of `MinValue`/`MaxValue`,
refuting "consumes no further bytes for every resolved precision". -/
theorem readData_len0_prec2_counterexample :
    readData (prec2Channel 0) { buf := zeros 16, pos := 0 } =
      .ok (some [], { buf := zeros 16, pos := 16 }) ∧ (16 : Nat) ≠ 0 := by
  decide

theorem readData_len0_witness :
    readData { precision := 8, length := 0 } { buf := [], pos := 0 } =
      .ok (some [], { buf := [], pos := 0 }) :=
  (readData_len0 { precision := 8, length := 0 } { buf := [], pos := 0 } rfl rfl).1 (Or.inl rfl)

/-- C4: the fastload precision-2 body decode reads `MinValue` and `MaxValue` as
8-byte doubles, computes `sf = (MaxValue - MinValue) / 32767`, then reads
`length` unsigned 16-bit integers and maps each raw value `v` to
`v * sf + MinValue`. -/
theorem readData_prec2_fast (raws minB maxB : List Nat)
    (hmin : minB.length = 8) (hmax : maxB.length = 8)
    (hv : ∀ v ∈ raws, v < 65536) :
    readData (prec2Channel raws.length)
        { buf := minB ++ maxB ++ raws.flatMap encU16LE, pos := 0 } =
      .ok (some (raws.map (fun (v : ℕ) =>
          (v : ℚ) * ((decodeF64 maxB - decodeF64 minB) / 32767) + decodeF64 minB)),
        { buf := minB ++ maxB ++ raws.flatMap encU16LE, pos := 16 + 2 * raws.length }) := by
  have hlen : (minB ++ maxB ++ raws.flatMap encU16LE).length = 16 + 2 * raws.length := by
    simp only [List.length_append, length_flatMap_encU16LE, hmin, hmax]
  have hrun : readData (prec2Channel raws.length)
      { buf := minB ++ maxB ++ raws.flatMap encU16LE, pos := 0 } =
      .ok (some ((raws.map encU16LE).map (fun bs =>
          qadd (qmul (qOfNat (leNat bs))
            (qdiv (qsub (decodeF64 maxB) (decodeF64 minB)) (qOfNat 32767)))
            (decodeF64 minB))),
        { buf := minB ++ maxB ++ raws.flatMap encU16LE, pos := 16 + 2 * raws.length }) := by
    rw [readData]
    dsimp only [prec2Channel]
    rw [if_neg (by decide)]
    rw [if_pos (by decide)]
    rw [if_neg (by decide)]
    rw [if_pos (by decide)]
    simp only [map_eq_pure_bind, bind_assoc]
    refine run_bind_ok _ _ _ (decodeF64 minB)
        ⟨minB ++ maxB ++ raws.flatMap encU16LE, 8⟩ _ ?_ ?_
    · rw [read_double_ok _ (by dsimp only; omega)]
      dsimp only
      rw [List.drop_zero, List.append_assoc, List.take_left' hmin]
    refine run_bind_ok _ _ _ (decodeF64 maxB)
        ⟨minB ++ maxB ++ raws.flatMap encU16LE, 16⟩ _ ?_ ?_
    · rw [read_double_ok _ (by dsimp only; omega)]
      dsimp only
      rw [List.append_assoc, List.drop_left' hmin, List.take_left' hmax]
    refine run_bind_ok _ _ _ (raws.map encU16LE)
        ⟨minB ++ maxB ++ raws.flatMap encU16LE, 16 + 2 * raws.length⟩ _ ?_ ?_
    · have hdrop : (minB ++ maxB ++ raws.flatMap encU16LE).drop 16 = raws.flatMap encU16LE :=
        List.drop_left' (by simp [hmin, hmax])
      dsimp only [npFromfile]
      rw [hdrop, if_neg (by omega), Int.toNat_ofNat, readChunks_flatMap_encU16LE]
      simp
    rw [bind_apply, pure_apply]
    rfl
  have hmap : (raws.map encU16LE).map (fun bs =>
      qadd (qmul (qOfNat (leNat bs))
        (qdiv (qsub (decodeF64 maxB) (decodeF64 minB)) (qOfNat 32767)))
        (decodeF64 minB)) =
      raws.map (fun (v : ℕ) =>
        (v : ℚ) * ((decodeF64 maxB - decodeF64 minB) / 32767) + decodeF64 minB) := by
    rw [List.map_map]
    refine List.map_congr_left ?_
    intro v hvmem
    simp only [Function.comp]
    rw [leNat_encU16LE v (hv v hvmem), qadd_eq, qmul_eq, qdiv_eq, qsub_eq, qOfNat_eq, qOfNat_eq]
    norm_num
  rw [hrun, hmap]

set_option maxRecDepth 4000 in
theorem readData_prec2_fast_witness :
    readData (prec2Channel 2) c4reader =
      .ok (some [0, 100], { c4reader with pos := 20 }) := by
  have h := readData_prec2_fast [0, 32767] (zeros 8) bytes100 rfl rfl (by decide)
  refine Eq.trans (show readData (prec2Channel 2) c4reader = _ from h) ?_
  have h100 : decodeF64 bytes100 = 100 := by
    rw [show (100 : ℚ) = qOfNat 100 from by decide]
    decide
  have h0 : decodeF64 (zeros 8) = 0 := by decide
  rw [h100, h0]
  norm_num
  decide

set_option maxRecDepth 4000 in
/-- C10: on the same precision-2 byte stream (scale factor 1, raw sample bytes
`0x00 0x80`), the fastload path decodes the unsigned value 32768 while the
non-fastload path decodes the signed value -32768: the two paths disagree at
raw values at or above 0x8000. -/
theorem readData_fast_slow_disagree :
    readData (prec2Channel 1) c10reader =
      .ok (some [qOfNat 32768], { c10reader with pos := 18 }) ∧
    readData { prec2Channel 1 with fastload := false } c10reader =
      .ok (some [qOfInt (-32768)], { c10reader with pos := 18 }) ∧
    qOfNat 32768 ≠ qOfInt (-32768) := by
  decide

/-- C3 amended: when the consumed byte count of the fixed field sequence
differs from the declared `nHdrBytes`, the decoder forces `ExportFormat = 0`
(which resolves to 8-byte precision) and repositions the cursor to exactly
`start + nHdrBytes` - provided that target lies inside the buffer; a declared
length pointing outside the buffer makes the resynchronizing seek itself fail
with `OutOfBounds`. -/
theorem readExtHeader_mismatch_fallback (r : BinaryReader) (nB : Int) (hdr : ExtHeader)
    (r1 : BinaryReader)
    (hfields : readExtFields r = .ok (hdr, r1))
    (hne : ((r1.pos : Int) - (r.pos : Int)) ≠ nB)
    (h0 : 0 ≤ (r.pos : Int) + nB)
    (hle : (r.pos : Int) + nB ≤ (r1.buf.length : Int)) :
    readExtHeader nB r = .ok ({ hdr with ExportFormat := 0 },
      { r1 with pos := ((r.pos : Int) + nB).toNat }) ∧
    resolvePrecision 0 = 8 := by
  constructor
  · rw [readExtHeader]
    refine run_bind_ok _ _ _ r.pos r _ rfl ?_
    refine run_bind_ok _ _ _ hdr r1 _ hfields ?_
    refine run_bind_ok _ _ _ r1.pos r1 _ rfl ?_
    rw [if_pos hne]
    refine run_bind_ok _ _ _ () ({ r1 with pos := ((r.pos : Int) + nB).toNat }) _ ?_ rfl
    rw [seek]
    rw [if_pos ⟨h0, hle⟩]
  · rfl

set_option maxRecDepth 4000 in
/-- C3 counterexample: the field sequence itself succeeds (consuming 148
bytes), the declared length 200 mismatches, and the fallback's seek to
`start + 200` lies outside the 148-byte buffer, so the mismatch path raises
`OutOfBounds` - refuting "never raises an error on this path". -/
theorem readExtHeader_mismatch_counterexample :
    readExtFields { buf := zeros 148, pos := 0 } =
      .ok (({} : ExtHeader), { buf := zeros 148, pos := 148 }) ∧
    readExtHeader 200 { buf := zeros 148, pos := 0 } = .error .outOfBounds := by
  decide

set_option maxRecDepth 4000 in
theorem readExtHeader_mismatch_fallback_witness :
    readExtHeader 150 { buf := zeros 160, pos := 0 } =
      .ok (({} : ExtHeader), { buf := zeros 160, pos := 150 }) ∧
    resolvePrecision 0 = 8 := by
  have h := readExtHeader_mismatch_fallback { buf := zeros 160, pos := 0 } 150 ({} : ExtHeader)
      { buf := zeros 160, pos := 148 } (by decide) (by decide) (by decide) (by decide)
  refine ⟨h.1.trans ?_, h.2⟩
  decide

set_option maxRecDepth 4000 in
/-- C9: decoding the `c9buf` record with caller file name `"dir/data.bin"`
produces `fileName = "data"` (the stem, computed and stored) but
`fullName = "dir/data.bin.a_b"` - built from the raw `fileName` argument
rather than the stem, contradicting the fully-qualified-name claim. -/
theorem channelInit_fullName_raw_fileName :
    channelInit "dir/data.bin" false false true { buf := c9buf, pos := 0 } =
      .ok (c9chan, { buf := c9buf, pos := 190 }) ∧
    c9chan.fileName = "data" ∧
    c9chan.fullName = "dir/data.bin.a_b" ∧
    c9chan.fullName ≠ "data.a_b" := by
  refine ⟨?_, by decide, by decide, by decide⟩
  rw [channelInit]
  try simp only [map_eq_pure_bind, bind_assoc]
  refine run_bind_ok _ _ _ (7 : Int) ⟨c9buf, 2⟩ _ (by decide) ?_
  refine run_bind_ok _ _ _ (5 : Int) ⟨c9buf, 6⟩ _ (by decide) ?_
  refine run_bind_ok _ _ _ (3 : Int) ⟨c9buf, 8⟩ _ (by decide) ?_
  refine run_bind_ok _ _ _ "a b" ⟨c9buf, 11⟩ _ (by decide) ?_
  refine run_bind_ok _ _ _ (0 : Int) ⟨c9buf, 13⟩ _ (by decide) ?_
  refine run_bind_ok _ _ _ "" ⟨c9buf, 13⟩ _ (by decide) ?_
  refine run_bind_ok _ _ _ (0 : Int) ⟨c9buf, 15⟩ _ (by decide) ?_
  refine run_bind_ok _ _ _ "" ⟨c9buf, 15⟩ _ (by decide) ?_
  refine run_bind_ok _ _ _ (0 : Int) ⟨c9buf, 17⟩ _ (by decide) ?_
  refine run_bind_ok _ _ _ (0 : Int) ⟨c9buf, 19⟩ _ (by decide) ?_
  refine run_bind_ok _ _ _ (0 : ℚ) ⟨c9buf, 27⟩ _ (by decide) ?_
  refine run_bind_ok _ _ _ (148 : Int) ⟨c9buf, 31⟩ _ (by decide) ?_
  refine run_bind_ok _ _ _ ({} : ExtHeader) ⟨c9buf, 179⟩ _ (by decide) ?_
  refine run_bind_ok _ _ _ (0 : Int) ⟨c9buf, 180⟩ _ (by decide) ?_
  refine run_bind_ok _ _ _ (0 : Int) ⟨c9buf, 181⟩ _ (by decide) ?_
  refine run_bind_ok _ _ _ (0 : Nat) ⟨c9buf, 182⟩ _ (by decide) ?_
  refine run_bind_ok _ _ _ () ⟨c9buf, 182⟩ _ (by decide) ?_
  refine run_bind_ok _ _ _ (0 : Int) ⟨c9buf, 184⟩ _ (by decide) ?_
  refine run_bind_ok _ _ _ (0 : Int) ⟨c9buf, 186⟩ _ (by decide) ?_
  refine run_bind_ok _ _ _ "" ⟨c9buf, 186⟩ _ (by decide) ?_
  refine run_bind_ok _ _ _ (0 : Int) ⟨c9buf, 190⟩ _ (by decide) ?_
  refine run_bind_ok _ _ _ "" ⟨c9buf, 190⟩ _ (by decide) ?_
  decide

end APRead
